import Mathlib

/-!
Shallow embedding of `hdf5file`'s object-header / message decoding engine
(`src/lowlevel/level2.rs`) and proofs of the specification's claims about it.

Byte streams are modelled as lists of naturals (each element one byte).
The `crate::io` reader helpers (`ReadExt` / `SeekExt`) are not part of the
given sources; they are modelled from the spec (section 6): fixed-width
little-endian integer reads, `skip(n)`, `read_vec(n)` ("read exactly N
remaining bytes", erroring on over-read), `read_all` (read what remains),
and `take(n)` sub-streams that bound reads to `n` bytes (`bound_to(n)`),
with `limit` reporting the remaining allowance.  A reader state carries the
stack of active `take` limits (innermost first) together with the
not-yet-consumed bytes of the underlying stream.
-/

/-- Error kinds of the crate's `ErrorKind` (the variants this code uses). -/
inductive ErrorKind where
  | InvalidFile
  | InvalidInput
  | Unsupported
  | Other
  | IoError
deriving DecidableEq, Repr

/-- An error: its kind, plus the numeric wire code embedded in the error
message where the source formats one (`track_panic!(kind, "...: {}", n)`).
Human-readable message text is not otherwise modelled. -/
structure Err where
  kind : ErrorKind
  wireCode : Option Nat := none
deriving DecidableEq, Repr

/-- Decidable equality of parse results (not provided for `Except` by the
libraries in scope). -/
instance {e a : Type} [DecidableEq e] [DecidableEq a] : DecidableEq (Except e a) :=
  fun x y => by
    cases x <;> cases y
    case error.error u v =>
      exact if h : u = v then .isTrue (by rw [h]) else .isFalse (by simp [h])
    case error.ok u v => exact .isFalse (by simp)
    case ok.error u v => exact .isFalse (by simp)
    case ok.ok u v =>
      exact if h : u = v then .isTrue (by rw [h]) else .isFalse (by simp [h])

/-- Reader state: the stack of active `take` limits (innermost first) and
the remaining bytes of the underlying stream. -/
structure Rd where
  limits : List Nat
  bytes : List Nat
deriving DecidableEq, Repr

/-- Bytes currently available to a read: the underlying stream length capped
by every active `take` limit. -/
def Rd.avail (s : Rd) : Nat := s.limits.foldr min s.bytes.length

/-- The parsing monad: state-passing over the reader, failing with `Err`. -/
def PM (α : Type) : Type := Rd → Except Err (α × Rd)

/-- Run a parser on a reader state. -/
def PM.run {α : Type} (x : PM α) (s : Rd) : Except Err (α × Rd) := x s

instance : Monad PM where
  pure a := fun s => .ok (a, s)
  bind x f := fun s =>
    match x s with
    | .error e => .error e
    | .ok (a, t) => f a t

theorem PM.run_bind {α β : Type} (x : PM α) (f : α → PM β) (s : Rd) :
    PM.run (x >>= f) s =
      match PM.run x s with
      | .error e => .error e
      | .ok (a, t) => PM.run (f a) t := rfl

theorem PM.run_pure {α : Type} (a : α) (s : Rd) :
    PM.run (pure a : PM α) s = .ok (a, s) := rfl

/-- Fail with an error kind (no numeric payload): `track_panic!(kind)` /
a failing `track_assert_eq!`. -/
def pmFail {α : Type} (k : ErrorKind) : PM α := fun _ => .error ⟨k, none⟩

/-- Fail with an error kind carrying a numeric wire code, as in
`track_panic!(kind, "...: {}", n)`. -/
def pmFailAt {α : Type} (k : ErrorKind) (n : Nat) : PM α :=
  fun _ => .error ⟨k, some n⟩

/-- `track_assert_eq!(..., kind)`: continue if the condition holds, fail
with `kind` otherwise. -/
def tassert (c : Prop) [Decidable c] (k : ErrorKind) : PM Unit :=
  fun s => if c then .ok ((), s) else .error ⟨k, none⟩

/-- Lift a pure `TryFrom`-style conversion result into the parsing monad. -/
def liftE {α : Type} (x : Except Err α) : PM α :=
  fun s =>
    match x with
    | .error e => .error e
    | .ok a => .ok (a, s)

/-- Read exactly `n` bytes (`read_vec(n)` and the base of every fixed-width
read): errors if fewer than `n` bytes are available under the current
`take` limits; otherwise consumes `n` bytes, decrementing every limit. -/
def readBytes (n : Nat) : PM (List Nat) :=
  fun s =>
    if n ≤ s.avail then
      .ok (s.bytes.take n, ⟨s.limits.map (· - n), s.bytes.drop n⟩)
    else
      .error ⟨.IoError, none⟩

/-- `read_all`: read every remaining available byte (never errors; a `take`
sub-stream simply reports end-of-data at its limit). -/
def readAll : PM (List Nat) :=
  fun s =>
    .ok (s.bytes.take s.avail, ⟨s.limits.map (· - s.avail), s.bytes.drop s.avail⟩)

/-- `skip(n)`: read and discard `n` bytes. -/
def skipN (n : Nat) : PM Unit := do
  let _ ← readBytes n
  pure ()

/-- Little-endian value of a byte list (first byte least significant). -/
def leVal : List Nat → Nat
  | [] => 0
  | b :: bs => b + 256 * leVal bs

/-- Read an `n`-byte little-endian unsigned integer. -/
def readLE (n : Nat) : PM Nat := do
  let bs ← readBytes n
  pure (leVal bs)

def readU8 : PM Nat := readLE 1
def readU16 : PM Nat := readLE 2
def readU24 : PM Nat := readLE 3
def readU32 : PM Nat := readLE 4
def readU64 : PM Nat := readLE 8

/-- Enter a `reader.take(n)` sub-stream: push a fresh limit of `n`. -/
def pushLimit (n : Nat) : PM Unit := fun s => .ok ((), ⟨n :: s.limits, s.bytes⟩)

/-- Leave a `take` sub-stream, returning `reader.limit()` — the number of
allowed-but-unconsumed bytes.  (Popping with no active limit cannot occur
in this development.) -/
def popLimit : PM Nat :=
  fun s =>
    match s.limits with
    | [] => .error ⟨.Other, none⟩
    | l :: ls => .ok (l, ⟨ls, s.bytes⟩)

/-- Run a parser `n` times in sequence, collecting the results in order
(`(0..n).map(|_| parse).collect::<Result<Vec<_>>>()`, which stops at the
first error). -/
def readN {α : Type} (n : Nat) (p : PM α) : PM (List α) :=
  match n with
  | 0 => pure []
  | n + 1 => do
      let x ← p
      let xs ← readN n p
      pure (x :: xs)

/-- The rational value of an IEEE-754 single-precision bit pattern
(`f32::from_bits` composed with the lossless widening `f64::from`, which
preserves the represented value exactly).  Exponent-255 payloads
(infinities/NaNs) have no rational value; they are mapped to out-of-range
rationals by the same formula, and no claim constrains them. -/
def f32ValOfBits (b : Nat) : ℚ :=
  let s : Nat := b / 2 ^ 31 % 2
  let e : Nat := b / 2 ^ 23 % 2 ^ 8
  let m : Nat := b % 2 ^ 23
  let mag : ℚ :=
    if e = 0 then (m : ℚ) / 2 ^ 149
    else ((2 ^ e * (2 ^ 23 + m) : Nat) : ℚ) / 2 ^ 150
  if s = 1 then -mag else mag

/-- `read_f32`: four raw little-endian bytes as a 32-bit float, widened to
a 64-bit float (modelled by its exact rational value). -/
def readF32 : PM ℚ := do
  let v ← readLE 4
  pure (f32ValOfBits v)

/-! ## Datatype classes and bit-field enums (`level2.rs` lines 213-286) -/

/-- `DatatypeClass` (wire codes 0..10). -/
inductive DatatypeClass where
  | FixedPoint
  | FloatingPoint
  | Time
  | String
  | BitField
  | Opaque
  | Compound
  | Reference
  | Enumerated
  | VariableLength
  | Array
deriving DecidableEq, Repr

/-- `impl TryFrom<u8> for DatatypeClass`: codes 0..10, any other code is an
`InvalidFile` error carrying the unknown class code
(`"Unknown datatype class: {}"`). -/
def DatatypeClass.tryFrom (f : Nat) : Except Err DatatypeClass :=
  if f = 0 then .ok .FixedPoint
  else if f = 1 then .ok .FloatingPoint
  else if f = 2 then .ok .Time
  else if f = 3 then .ok .String
  else if f = 4 then .ok .BitField
  else if f = 5 then .ok .Opaque
  else if f = 6 then .ok .Compound
  else if f = 7 then .ok .Reference
  else if f = 8 then .ok .Enumerated
  else if f = 9 then .ok .VariableLength
  else if f = 10 then .ok .Array
  else .error ⟨.InvalidFile, some f⟩

/-- `MantissaNorm`. -/
inductive MantissaNorm where
  | None
  | AlwaysSet
  | ImpliedToBeSet
deriving DecidableEq, Repr

/-- `impl TryFrom<u8> for MantissaNorm`: 0/1/2 are the three modes, 3 is a
reserved value (`InvalidFile`), anything else is `InvalidInput`. -/
def MantissaNorm.tryFrom (f : Nat) : Except Err MantissaNorm :=
  if f = 0 then .ok .None
  else if f = 1 then .ok .AlwaysSet
  else if f = 2 then .ok .ImpliedToBeSet
  else if f = 3 then .error ⟨.InvalidFile, none⟩
  else .error ⟨.InvalidInput, none⟩

/-- `Endian`. -/
inductive Endian where
  | Little
  | Big
  | Vax
deriving DecidableEq, Repr

/-- `impl TryFrom<u8> for Endian`: `0b0000_0000` little, `0b0000_0001` big,
`0b0100_0000` reserved (`InvalidFile`), `0b0100_0001` VAX, anything else
`InvalidInput`. -/
def Endian.tryFrom (f : Nat) : Except Err Endian :=
  if f = 0 then .ok .Little
  else if f = 1 then .ok .Big
  else if f = 64 then .error ⟨.InvalidFile, none⟩
  else if f = 65 then .ok .Vax
  else .error ⟨.InvalidInput, none⟩

/-! ## Floating-point and fixed-point datatypes (`level2.rs` lines 288-384) -/

/-- `FloatingPointDatatype` (all fields as in the source struct). -/
structure FloatingPointDatatype where
  size : Nat
  endian : Endian
  lowPaddingBit : Nat
  highPaddingBit : Nat
  internalPaddingBit : Nat
  mantissaNorm : MantissaNorm
  signLocation : Nat
  bitOffset : Nat
  bitPrecision : Nat
  exponentLocation : Nat
  exponentSize : Nat
  mantissaLocation : Nat
  mantissaSize : Nat
  exponentBias : Nat
deriving DecidableEq, Repr

namespace FloatingPointDatatype

/-- `FloatingPointDatatype::decode`: assert every description field equals
the canonical IEEE-754 single-precision layout (each mismatch is an
`Unsupported` error, checked before any data byte is read — note the `size`
field is *not* checked), then read one little-endian 32-bit float and widen
it to 64 bits. -/
def decode (t : FloatingPointDatatype) : PM ℚ := do
  tassert (t.endian = Endian.Little) .Unsupported
  tassert (t.lowPaddingBit = 0) .Unsupported
  tassert (t.highPaddingBit = 0) .Unsupported
  tassert (t.internalPaddingBit = 0) .Unsupported
  tassert (t.mantissaNorm = MantissaNorm.ImpliedToBeSet) .Unsupported
  tassert (t.signLocation = 31) .Unsupported
  tassert (t.bitOffset = 0) .Unsupported
  tassert (t.bitPrecision = 32) .Unsupported
  tassert (t.exponentLocation = 23) .Unsupported
  tassert (t.exponentSize = 8) .Unsupported
  tassert (t.mantissaLocation = 0) .Unsupported
  tassert (t.mantissaSize = 23) .Unsupported
  tassert (t.exponentBias = 127) .Unsupported
  readF32

/-- `FloatingPointDatatype::from_reader`: read the class-specific body
(2-byte bit offset, 2-byte bit precision, four single-byte exponent /
mantissa locations and sizes, 4-byte exponent bias, 4 reserved bytes), then
extract the semantic fields from the 24-bit class bit field.  Bit masks and
shifts are written with division/modulus: `bit_field & 0b0100_0001` is
`bitField % 2 + 64 * (bitField / 64 % 2)` (bits 0 and 6),
`(bit_field >> k) & 1` is `bitField / 2 ^ k % 2`,
`(bit_field >> 4) & 0b11` is `bitField / 16 % 4`, and
`(bit_field >> 8) as u8` is `bitField / 256 % 256`. -/
def from_reader (bitField size : Nat) : PM FloatingPointDatatype := do
  let bitOffset ← readU16
  let bitPrecision ← readU16
  let exponentLocation ← readU8
  let exponentSize ← readU8
  let mantissaLocation ← readU8
  let mantissaSize ← readU8
  let exponentBias ← readU32
  skipN 4
  let endian ← liftE (Endian.tryFrom (bitField % 2 + 64 * (bitField / 64 % 2)))
  let mantissaNorm ← liftE (MantissaNorm.tryFrom (bitField / 16 % 4))
  pure
    { size := size
      endian := endian
      lowPaddingBit := bitField / 2 % 2
      highPaddingBit := bitField / 4 % 2
      internalPaddingBit := bitField / 8 % 2
      mantissaNorm := mantissaNorm
      signLocation := bitField / 256 % 256
      bitOffset := bitOffset
      bitPrecision := bitPrecision
      exponentLocation := exponentLocation
      exponentSize := exponentSize
      mantissaLocation := mantissaLocation
      mantissaSize := mantissaSize
      exponentBias := exponentBias }

end FloatingPointDatatype

/-- `FixedPointDatatype`. -/
structure FixedPointDatatype where
  bitField : Nat
  size : Nat
  bitOffset : Nat
  bitPrecision : Nat
deriving DecidableEq, Repr

/-- `FixedPointDatatype::from_reader`: 2-byte bit offset, 2-byte bit
precision, 4 reserved bytes. -/
def FixedPointDatatype.from_reader (bitField size : Nat) : PM FixedPointDatatype := do
  let bitOffset ← readU16
  let bitPrecision ← readU16
  skipN 4
  pure { bitField := bitField, size := size,
         bitOffset := bitOffset, bitPrecision := bitPrecision }

/-- `DatatypeMessage` (type=0x03): currently FixedPoint or FloatingPoint. -/
inductive DatatypeMessage where
  | FixedPoint (t : FixedPointDatatype)
  | FloatingPoint (t : FloatingPointDatatype)
deriving DecidableEq, Repr

/-- `DatatypeMessage::from_reader`: first byte packs a 4-bit version (high
nibble, must equal 1 — asserted with `Unsupported` *after* the class code is
converted) and a 4-bit class code (low nibble, via `DatatypeClass::try_from`,
which fails with `InvalidFile` on unknown codes); then a 24-bit class bit
field and a 32-bit element size; then the class-specific body.  Classes
other than FixedPoint/FloatingPoint fail with `Unsupported` (the source
attaches the class as context, modelled here without a wire code). -/
def DatatypeMessage.from_reader : PM DatatypeMessage := do
  let classAndVersion ← readU8
  let version := classAndVersion / 16
  let class0 ← liftE (DatatypeClass.tryFrom (classAndVersion % 16))
  tassert (version = 1) .Unsupported
  let bitField ← readU24
  let size ← readU32
  match class0 with
  | .FixedPoint => do
      let t ← FixedPointDatatype.from_reader bitField size
      pure (DatatypeMessage.FixedPoint t)
  | .FloatingPoint => do
      let t ← FloatingPointDatatype.from_reader bitField size
      pure (DatatypeMessage.FloatingPoint t)
  | _ => pmFail .Unsupported

/-! ## Header messages (`level2.rs` lines 163-211, 432-554) -/

/-- `NilMessage` (type=0x00): consumes and discards its whole body. -/
structure NilMessage where
deriving DecidableEq, Repr

def NilMessage.from_reader : PM NilMessage := do
  let _ ← readAll
  pure {}

/-- `DataspaceMessage` (type=0x01). -/
structure DataspaceMessage where
  dimensionSizes : List Nat
  dimensionMaxSizes : Option (List Nat)
deriving DecidableEq, Repr

/-- `DataspaceMessage::from_reader`: version byte (must be 1, else
`Unsupported`), dimensionality byte, flags byte, 5 reserved bytes, then
`dimensionality` 64-bit dimension sizes, then (if flag bit 0 is set) as many
64-bit maximum sizes; a set flag bit 1 (permutation indices) is rejected as
`Unsupported`. -/
def DataspaceMessage.from_reader : PM DataspaceMessage := do
  let version ← readU8
  tassert (version = 1) .Unsupported
  let dimensionality ← readU8
  let flags ← readU8
  skipN 5
  let dimensionSizes ← readN dimensionality readU64
  let dimensionMaxSizes ←
    if flags % 2 ≠ 0 then do
      let ms ← readN dimensionality readU64
      pure (some ms)
    else
      pure none
  if flags / 2 % 2 ≠ 0 then
    pmFail .Unsupported
  else
    pure { dimensionSizes := dimensionSizes, dimensionMaxSizes := dimensionMaxSizes }

/-- `FillValueMessage` (type=0x05). -/
structure FillValueMessage where
  spaceAllocationTime : Nat
  fillValueWriteTime : Nat
  fillValue : Option (List Nat)
deriving DecidableEq, Repr

/-- `FillValueMessage::from_reader` (version 2 only). -/
def FillValueMessage.from_reader : PM FillValueMessage := do
  let version ← readU8
  tassert (version = 2) .Unsupported
  let spaceAllocationTime ← readU8
  let fillValueWriteTime ← readU8
  let fillValueDefined ← readU8
  let fillValue ←
    if fillValueDefined = 1 then do
      let size ← readU32
      let v ← readBytes size
      pure (some v)
    else
      pure none
  pure { spaceAllocationTime := spaceAllocationTime,
         fillValueWriteTime := fillValueWriteTime,
         fillValue := fillValue }

/-- `Layout`: only the contiguous variant exists. -/
inductive Layout where
  | Contiguous (address : Nat) (size : Nat)
deriving DecidableEq, Repr

/-- `Layout::from_reader`: class 0 (compact) and 2 (chunked) are
`Unsupported`; class 1 reads a 64-bit address and 64-bit size; any other
class is `InvalidFile` carrying the unknown layout class code. -/
def Layout.from_reader (c : Nat) : PM Layout :=
  if c = 0 then pmFail .Unsupported
  else if c = 1 then do
    let address ← readU64
    let size ← readU64
    pure (Layout.Contiguous address size)
  else if c = 2 then pmFail .Unsupported
  else pmFailAt .InvalidFile c

/-- `DataLayoutMessage` (type=0x08). -/
structure DataLayoutMessage where
  layout : Layout
deriving DecidableEq, Repr

/-- `DataLayoutMessage::from_reader` (version 3 only): version byte, layout
class byte, class body, then any trailing padding is read and ignored. -/
def DataLayoutMessage.from_reader : PM DataLayoutMessage := do
  let version ← readU8
  tassert (version = 3) .Unsupported
  let layoutClass ← readU8
  let layout ← Layout.from_reader layoutClass
  let _ ← readAll
  pure { layout := layout }

/-- `SymbolTableMessage` (type=0x11): two 64-bit addresses. -/
structure SymbolTableMessage where
  bTreeAddress : Nat
  localHeapAddress : Nat
deriving DecidableEq, Repr

def SymbolTableMessage.from_reader : PM SymbolTableMessage := do
  let bTreeAddress ← readU64
  let localHeapAddress ← readU64
  pure { bTreeAddress := bTreeAddress, localHeapAddress := localHeapAddress }

/-- `ObjectModificationTimeMessage` (type=0x12, version 1 only). -/
structure ObjectModificationTimeMessage where
  unixtimeSeconds : Nat
deriving DecidableEq, Repr

def ObjectModificationTimeMessage.from_reader : PM ObjectModificationTimeMessage := do
  let version ← readU8
  tassert (version = 1) .Unsupported
  skipN 3
  let unixtimeSeconds ← readU32
  pure { unixtimeSeconds := unixtimeSeconds }

/-- `Message`: the implemented message variants. -/
inductive Message where
  | Nil (m : NilMessage)
  | Dataspace (m : DataspaceMessage)
  | Datatype (m : DatatypeMessage)
  | FillValue (m : FillValueMessage)
  | DataLayout (m : DataLayoutMessage)
  | SymbolTable (m : SymbolTableMessage)
  | ObjectModificationTime (m : ObjectModificationTimeMessage)
deriving DecidableEq, Repr

/-- `HeaderMessageFlags::from_bits_truncate`: keep only the defined flag
bits.  The defined bits are `0b0000_0001` through `0b0100_0000`, whose union
is `0b0111_1111`, so truncation keeps the low seven bits. -/
def headerMessageFlagsTruncate (b : Nat) : Nat := b % 128

/-- `HeaderMessage`: the truncated flag bits and the parsed message. -/
structure HeaderMessage where
  flags : Nat
  message : Message
deriving DecidableEq, Repr

/-- The type-code dispatch inside `HeaderMessage::from_reader` (the `match
kind` on `level2.rs` lines 144-156), factored out: 0x00 Nil, 0x01 Dataspace,
0x03 Datatype, 0x05 FillValue, 0x08 DataLayout, 0x11 SymbolTable,
0x12 ObjectModificationTime; any other code is `Unsupported`, carrying the
offending code (`"Message type: {}"`). -/
def dispatchMessage (kind : Nat) : PM Message :=
  if kind = 0x00 then do
    let m ← NilMessage.from_reader
    pure (Message.Nil m)
  else if kind = 0x01 then do
    let m ← DataspaceMessage.from_reader
    pure (Message.Dataspace m)
  else if kind = 0x03 then do
    let m ← DatatypeMessage.from_reader
    pure (Message.Datatype m)
  else if kind = 0x05 then do
    let m ← FillValueMessage.from_reader
    pure (Message.FillValue m)
  else if kind = 0x08 then do
    let m ← DataLayoutMessage.from_reader
    pure (Message.DataLayout m)
  else if kind = 0x11 then do
    let m ← SymbolTableMessage.from_reader
    pure (Message.SymbolTable m)
  else if kind = 0x12 then do
    let m ← ObjectModificationTimeMessage.from_reader
    pure (Message.ObjectModificationTime m)
  else pmFailAt .Unsupported kind

/-- `HeaderMessage::from_reader`: 2-byte type code, 2-byte body length,
1-byte flags (truncated to the defined bits), 3 reserved bytes; then the
variant parser runs confined to a `take(data_len)` sub-stream, and
afterwards the sub-stream's remaining limit must be exactly zero — a
nonzero remainder fails with `ErrorKind::Other`
(`track_assert_eq!(reader.limit(), 0, ErrorKind::Other)`). -/
def HeaderMessage.from_reader : PM HeaderMessage := do
  let kind ← readU16
  let dataLen ← readU16
  let flagsByte ← readU8
  skipN 3
  pushLimit dataLen
  let message ← dispatchMessage kind
  let l ← popLimit
  tassert (l = 0) .Other
  pure { flags := headerMessageFlagsTruncate flagsByte, message := message }

/-! ## Object header prefix and object header (`level2.rs` lines 9-116) -/

/-- `ObjectHeaderPrefix` (named `Pfx` here; fields as in the source). -/
structure ObjectHeaderPfx where
  messages : List HeaderMessage
  objectReferenceCount : Nat
  objectHeaderSize : Nat
deriving DecidableEq, Repr

/-- `ObjectHeaderPrefix::from_reader`: version byte (must be 1, else
`InvalidFile`), reserved byte (must be 0, else `InvalidFile`), 2-byte
message count, 4-byte object reference count, 4-byte declared header size,
4 alignment padding bytes; then exactly `message count` header messages are
parsed from a `take(header_size)` sub-stream, whose remaining limit must be
exactly zero afterwards (`track_assert_eq!(reader.limit(), 0,
ErrorKind::Other; ...)`). -/
def ObjectHeaderPfx.from_reader : PM ObjectHeaderPfx := do
  let version ← readU8
  tassert (version = 1) .InvalidFile
  let reserved ← readU8
  tassert (reserved = 0) .InvalidFile
  let headerMessageCount ← readU16
  let objectReferenceCount ← readU32
  let objectHeaderSize ← readU32
  skipN 4
  pushLimit objectHeaderSize
  let messages ← readN headerMessageCount HeaderMessage.from_reader
  let l ← popLimit
  tassert (l = 0) .Other
  pure { messages := messages,
         objectReferenceCount := objectReferenceCount,
         objectHeaderSize := objectHeaderSize }

/-- `ObjectHeader`: owns one prefix. -/
structure ObjectHeader where
  pfx : ObjectHeaderPfx
deriving DecidableEq, Repr

def ObjectHeader.from_reader : PM ObjectHeader := do
  let p ← ObjectHeaderPfx.from_reader
  pure { pfx := p }

/-- `DataObject`: an N-dimensional array of 64-bit floats, modelled by its
shape (the dimension sizes) and its elements flattened in row-major order
(which is exactly the order `ndarray::aview1(..).into_shape(dims)` gives
the decoded flat sequence). -/
inductive DataObject where
  | Float (shape : List Nat) (data : List ℚ)
deriving DecidableEq, Repr

/-- First `Dataspace` message, if any (`ObjectHeader::dimensions`' loop). -/
def findDataspace : List HeaderMessage → Option DataspaceMessage
  | [] => none
  | hm :: rest =>
    match hm.message with
    | .Dataspace m => some m
    | _ => findDataspace rest

/-- First `Datatype` message, if any (`ObjectHeader::datatype`'s loop). -/
def findDatatype : List HeaderMessage → Option DatatypeMessage
  | [] => none
  | hm :: rest =>
    match hm.message with
    | .Datatype m => some m
    | _ => findDatatype rest

/-- First `DataLayout` message, if any (`ObjectHeader::get_data_bytes`). -/
def findDataLayout : List HeaderMessage → Option DataLayoutMessage
  | [] => none
  | hm :: rest =>
    match hm.message with
    | .DataLayout m => some m
    | _ => findDataLayout rest

/-- `ObjectHeader::dimensions`: the dimension sizes of the first Dataspace
message (each `u64` converted `as usize`, an identity here); `Other` if the
header has none. -/
def ObjectHeader.dimensions (h : ObjectHeader) : Except Err (List Nat) :=
  match findDataspace h.pfx.messages with
  | some m => .ok m.dimensionSizes
  | none => .error ⟨.Other, none⟩

/-- `ObjectHeader::datatype`: the first Datatype message, `Other` if none. -/
def ObjectHeader.datatype (h : ObjectHeader) : Except Err DatatypeMessage :=
  match findDatatype h.pfx.messages with
  | some m => .ok m
  | none => .error ⟨.Other, none⟩

/-- `ObjectHeader::get_data_bytes`: find the first DataLayout message (its
layout is necessarily `Contiguous`), `seek_to(address)` on the file and
`read_vec(size)` — modelled from the spec on the whole file byte list:
the read succeeds exactly when the region `[address, address + size)` lies
within the file, and yields those bytes.  `Other` ("Not a data object") if
the header has no DataLayout message. -/
def ObjectHeader.get_data_bytes (h : ObjectHeader) (file : List Nat) :
    Except Err (List Nat) :=
  match findDataLayout h.pfx.messages with
  | some m =>
    match m.layout with
    | .Contiguous address size =>
      if address + size ≤ file.length then .ok ((file.drop address).take size)
      else .error ⟨.IoError, none⟩
  | none => .error ⟨.Other, none⟩

/-- `ObjectHeader::get_data_object`: fetch the layout's raw bytes, the
dimension sizes and the datatype; `count` is the product of the dimension
sizes; for a floating-point datatype, decode exactly `count` elements
sequentially from the raw byte buffer, require the buffer to be fully
consumed afterwards (`track_assert_eq!(reader, b"", ErrorKind::InvalidFile)`),
and reshape the flat sequence to the dimension sizes in row-major order
(the reshape's size check, which always holds here since the flat length is
the dimension product, is modelled from the spec as a decoding error).
Any other datatype class is `Unsupported`. -/
def ObjectHeader.get_data_object (h : ObjectHeader) (file : List Nat) :
    Except Err DataObject :=
  match h.get_data_bytes file with
  | .error e => .error e
  | .ok bytes =>
    match h.dimensions with
    | .error e => .error e
    | .ok dimensions =>
      match h.datatype with
      | .error e => .error e
      | .ok datatype =>
        let count := dimensions.prod
        match datatype with
        | .FloatingPoint t =>
          match PM.run (readN count t.decode) ⟨[], bytes⟩ with
          | .error e => .error e
          | .ok (items, rest) =>
            if rest.bytes = [] then
              if items.length = dimensions.prod then
                .ok (DataObject.Float dimensions items)
              else
                .error ⟨.Other, none⟩
            else
              .error ⟨.InvalidFile, none⟩
        | _ => .error ⟨.Unsupported, none⟩

/-- The canonical IEEE-754 single-precision description (the only layout
`FloatingPointDatatype::decode` accepts; the value used by the source's
`floating_point_decode_works` test). -/
def canonicalF32 : FloatingPointDatatype :=
  { size := 4
    endian := .Little
    lowPaddingBit := 0
    highPaddingBit := 0
    internalPaddingBit := 0
    mantissaNorm := .ImpliedToBeSet
    signLocation := 31
    bitOffset := 0
    bitPrecision := 32
    exponentLocation := 23
    exponentSize := 8
    mantissaLocation := 0
    mantissaSize := 23
    exponentBias := 127 }

/-! ## Reduction lemmas for the reader primitives -/

theorem run_readBytes (n : Nat) (s : Rd) :
    PM.run (readBytes n) s =
      if n ≤ s.avail then
        .ok (s.bytes.take n, ⟨s.limits.map (· - n), s.bytes.drop n⟩)
      else .error ⟨.IoError, none⟩ := rfl

theorem run_tassert (c : Prop) [Decidable c] (k : ErrorKind) (s : Rd) :
    PM.run (tassert c k) s =
      if c then .ok ((), s) else .error ⟨k, none⟩ := rfl

theorem run_pushLimit (n : Nat) (s : Rd) :
    PM.run (pushLimit n) s = .ok ((), ⟨n :: s.limits, s.bytes⟩) := rfl

theorem run_popLimit_cons (l : Nat) (ls bs : List Nat) :
    PM.run popLimit ⟨l :: ls, bs⟩ = .ok (l, ⟨ls, bs⟩) := rfl

theorem run_pmFail {α : Type} (k : ErrorKind) (s : Rd) :
    PM.run (pmFail k : PM α) s = .error ⟨k, none⟩ := rfl

theorem run_pmFailAt {α : Type} (k : ErrorKind) (n : Nat) (s : Rd) :
    PM.run (pmFailAt k n : PM α) s = .error ⟨k, some n⟩ := rfl

theorem run_liftE {α : Type} (x : Except Err α) (s : Rd) :
    PM.run (liftE x) s =
      match x with
      | .error e => .error e
      | .ok a => .ok (a, s) := rfl

theorem avail_free (bs : List Nat) : Rd.avail ⟨[], bs⟩ = bs.length := rfl

theorem run_readBytes_free (n : Nat) (bs : List Nat) :
    PM.run (readBytes n) ⟨[], bs⟩ =
      if n ≤ bs.length then .ok (bs.take n, ⟨[], bs.drop n⟩)
      else .error ⟨.IoError, none⟩ := by
  rw [run_readBytes]
  simp [Rd.avail]

theorem run_readU8_cons (b : Nat) (bs : List Nat) :
    PM.run readU8 ⟨[], b :: bs⟩ = .ok (b, ⟨[], bs⟩) := by
  rw [readU8, readLE, PM.run_bind, run_readBytes_free]
  simp [leVal, PM.run_pure]

theorem run_readU16_cons (b0 b1 : Nat) (bs : List Nat) :
    PM.run readU16 ⟨[], b0 :: b1 :: bs⟩ = .ok (b0 + 256 * b1, ⟨[], bs⟩) := by
  rw [readU16, readLE, PM.run_bind, run_readBytes_free]
  simp [leVal, PM.run_pure]

theorem run_readU32_cons (b0 b1 b2 b3 : Nat) (bs : List Nat) :
    PM.run readU32 ⟨[], b0 :: b1 :: b2 :: b3 :: bs⟩ =
      .ok (b0 + 256 * (b1 + 256 * (b2 + 256 * b3)), ⟨[], bs⟩) := by
  rw [readU32, readLE, PM.run_bind, run_readBytes_free]
  simp [leVal, PM.run_pure]

theorem run_skipN_free (n : Nat) (bs : List Nat) (h : n ≤ bs.length) :
    PM.run (skipN n) ⟨[], bs⟩ = .ok ((), ⟨[], bs.drop n⟩) := by
  rw [skipN, PM.run_bind, run_readBytes_free, if_pos h]
  simp [PM.run_pure]

theorem run_tassert_bind {β : Type} (c : Prop) [Decidable c] (k : ErrorKind)
    (f : Unit → PM β) (s : Rd) :
    PM.run (tassert c k >>= f) s =
      if c then PM.run (f ()) s else .error ⟨k, none⟩ := by
  rw [PM.run_bind, run_tassert]
  by_cases hc : c <;> simp [hc]

theorem run_readLE_ok (n : Nat) (s : Rd) (v : Nat) (t : Rd)
    (h : PM.run (readLE n) s = .ok (v, t)) :
    v = leVal (s.bytes.take n) ∧
      t = ⟨s.limits.map (· - n), s.bytes.drop n⟩ ∧ n ≤ s.avail := by
  rw [readLE, PM.run_bind, run_readBytes] at h
  by_cases hn : n ≤ s.avail
  · rw [if_pos hn] at h
    simp [PM.run_pure] at h
    exact ⟨h.1.symm, h.2.symm, hn⟩
  · rw [if_neg hn] at h
    exact absurd h (by simp)

theorem readN_length {α : Type} (n : Nat) (p : PM α) (s : Rd) (xs : List α) (t : Rd)
    (h : PM.run (readN n p) s = .ok (xs, t)) : xs.length = n := by
  induction n generalizing s xs t with
  | zero =>
    simp [readN, PM.run_pure] at h
    simp [h.1]
  | succ n ih =>
    rw [readN, PM.run_bind] at h
    cases hp : PM.run p s with
    | error e => rw [hp] at h; exact absurd h (by simp)
    | ok v =>
      obtain ⟨a, t'⟩ := v
      rw [hp] at h
      dsimp only [] at h
      rw [PM.run_bind] at h
      cases hq : PM.run (readN n p) t' with
      | error e => rw [hq] at h; exact absurd h (by simp)
      | ok w =>
        obtain ⟨ys, u⟩ := w
        rw [hq] at h
        simp [PM.run_pure] at h
        have := ih _ _ _ hq
        simp [← h.1, this]

/-- `HeaderMessage::from_reader` on an eight-byte record header followed by
`rest`: reduce the fixed header reads, leaving the dispatched body parse and
the trailing-limit check. -/
theorem run_headerMessage_reduce (b0 b1 b2 b3 fb r1 r2 r3 : Nat) (rest : List Nat) :
    PM.run HeaderMessage.from_reader
        ⟨[], b0 :: b1 :: b2 :: b3 :: fb :: r1 :: r2 :: r3 :: rest⟩ =
      match PM.run (dispatchMessage (b0 + 256 * b1)) ⟨[b2 + 256 * b3], rest⟩ with
      | .error e => .error e
      | .ok (m, t) =>
        match PM.run popLimit t with
        | .error e => .error e
        | .ok (l, u) =>
          if l = 0 then
            .ok (⟨headerMessageFlagsTruncate fb, m⟩, u)
          else .error ⟨.Other, none⟩ := by
  rw [HeaderMessage.from_reader, PM.run_bind, run_readU16_cons]
  dsimp only []
  rw [PM.run_bind, run_readU16_cons]
  dsimp only []
  rw [PM.run_bind, run_readU8_cons]
  dsimp only []
  rw [PM.run_bind, run_skipN_free 3 _ (by simp)]
  dsimp only [List.drop]
  rw [PM.run_bind, run_pushLimit]
  dsimp only []
  rw [PM.run_bind]
  cases hD : PM.run (dispatchMessage (b0 + 256 * b1)) ⟨[b2 + 256 * b3], rest⟩ with
  | error e => rfl
  | ok v =>
    obtain ⟨m, t⟩ := v
    dsimp only []
    rw [PM.run_bind]
    cases hP : PM.run popLimit t with
    | error e => rfl
    | ok w =>
      obtain ⟨l, u⟩ := w
      dsimp only []
      rw [run_tassert_bind]
      by_cases hl : l = 0 <;> simp [hl, PM.run_pure]

/-- Decoding one value with the canonical description consumes exactly four
bytes and yields the value of their little-endian 32-bit pattern. -/
theorem run_canonical_decode_cons (x0 x1 x2 x3 : Nat) (bs : List Nat) :
    PM.run canonicalF32.decode ⟨[], x0 :: x1 :: x2 :: x3 :: bs⟩ =
      .ok (f32ValOfBits (x0 + 256 * (x1 + 256 * (x2 + 256 * x3))), ⟨[], bs⟩) := by
  simp [FloatingPointDatatype.decode, run_tassert, canonicalF32, readF32,
    readLE, PM.run_bind, run_readBytes_free, leVal, PM.run_pure]

/-- Decoding one value with the canonical description from an exhausted
buffer fails with the I/O read error. -/
theorem run_canonical_decode_nil :
    PM.run canonicalF32.decode ⟨[], []⟩ = .error ⟨.IoError, none⟩ := by
  simp [FloatingPointDatatype.decode, run_tassert, canonicalF32, readF32,
    readLE, PM.run_bind, run_readBytes_free]

/-- `decode` in closed form: the canonical-layout check (thirteen
conjuncts, one per `track_assert_eq!`) followed by the 4-byte float read. -/
theorem run_decode_eq (t : FloatingPointDatatype) (s : Rd) :
    PM.run t.decode s =
      if t.endian = Endian.Little ∧ t.lowPaddingBit = 0 ∧ t.highPaddingBit = 0 ∧
         t.internalPaddingBit = 0 ∧ t.mantissaNorm = MantissaNorm.ImpliedToBeSet ∧
         t.signLocation = 31 ∧ t.bitOffset = 0 ∧ t.bitPrecision = 32 ∧
         t.exponentLocation = 23 ∧ t.exponentSize = 8 ∧ t.mantissaLocation = 0 ∧
         t.mantissaSize = 23 ∧ t.exponentBias = 127
      then PM.run readF32 s
      else .error ⟨.Unsupported, none⟩ := by
  rw [FloatingPointDatatype.decode]
  rw [run_tassert_bind]
  by_cases h1 : t.endian = Endian.Little
  case neg => rw [if_neg h1, if_neg (by tauto)]
  rw [if_pos h1, run_tassert_bind]
  by_cases h2 : t.lowPaddingBit = 0
  case neg => rw [if_neg h2, if_neg (by tauto)]
  rw [if_pos h2, run_tassert_bind]
  by_cases h3 : t.highPaddingBit = 0
  case neg => rw [if_neg h3, if_neg (by tauto)]
  rw [if_pos h3, run_tassert_bind]
  by_cases h4 : t.internalPaddingBit = 0
  case neg => rw [if_neg h4, if_neg (by tauto)]
  rw [if_pos h4, run_tassert_bind]
  by_cases h5 : t.mantissaNorm = MantissaNorm.ImpliedToBeSet
  case neg => rw [if_neg h5, if_neg (by tauto)]
  rw [if_pos h5, run_tassert_bind]
  by_cases h6 : t.signLocation = 31
  case neg => rw [if_neg h6, if_neg (by tauto)]
  rw [if_pos h6, run_tassert_bind]
  by_cases h7 : t.bitOffset = 0
  case neg => rw [if_neg h7, if_neg (by tauto)]
  rw [if_pos h7, run_tassert_bind]
  by_cases h8 : t.bitPrecision = 32
  case neg => rw [if_neg h8, if_neg (by tauto)]
  rw [if_pos h8, run_tassert_bind]
  by_cases h9 : t.exponentLocation = 23
  case neg => rw [if_neg h9, if_neg (by tauto)]
  rw [if_pos h9, run_tassert_bind]
  by_cases h10 : t.exponentSize = 8
  case neg => rw [if_neg h10, if_neg (by tauto)]
  rw [if_pos h10, run_tassert_bind]
  by_cases h11 : t.mantissaLocation = 0
  case neg => rw [if_neg h11, if_neg (by tauto)]
  rw [if_pos h11, run_tassert_bind]
  by_cases h12 : t.mantissaSize = 23
  case neg => rw [if_neg h12, if_neg (by tauto)]
  rw [if_pos h12, run_tassert_bind]
  by_cases h13 : t.exponentBias = 127
  case neg => rw [if_neg h13, if_neg (by tauto)]
  rw [if_pos h13,
    if_pos ⟨h1, h2, h3, h4, h5, h6, h7, h8, h9, h10, h11, h12, h13⟩]

/-! ## Claims -/

/-- C4: decoding the bytes `[166, 73, 90, 67]` under the canonical IEEE-754
single-precision description succeeds and yields exactly `7152851 / 32768 =
218.287689208984375`, the bit-exact lossless widening of the 32-bit float to
a 64-bit float.  The claim's decimal literal `218.28768920898438` denotes
this very double: the second conjunct shows that literal's value differs
from it by less than a half-ulp (`2 ^ (-46)` at this magnitude), so the
literal rounds to exactly this value. -/
theorem floating_point_decode_works :
    PM.run canonicalF32.decode ⟨[], [166, 73, 90, 67]⟩ =
      .ok ((7152851 : ℚ) / 32768, ⟨[], []⟩) ∧
    |(7152851 : ℚ) / 32768 - 21828768920898438 / 10 ^ 14| < 1 / 2 ^ 46 := by
  refine ⟨?_, ?_⟩
  · rw [run_canonical_decode_cons]
    norm_num [f32ValOfBits]
  · rw [abs_sub_lt_iff]
    norm_num

/-- C5 counterexample: a `FloatingPointDatatype` that deviates from the
canonical description in its `size` field (8 instead of 4) is decoded
*successfully* — `decode` never checks `size` — consuming the four data
bytes; this refutes "deviates from the canonical layout in any field ⟹
decode fails with Unsupported and zero bytes consumed". -/
theorem decode_accepts_deviating_size :
    (⟨8, .Little, 0, 0, 0, .ImpliedToBeSet, 31, 0, 32, 23, 8, 0, 23, 127⟩ :
        FloatingPointDatatype) ≠ canonicalF32 ∧
    PM.run (⟨8, .Little, 0, 0, 0, .ImpliedToBeSet, 31, 0, 32, 23, 8, 0, 23, 127⟩ :
        FloatingPointDatatype).decode ⟨[], [166, 73, 90, 67]⟩ =
      .ok ((7152851 : ℚ) / 32768, ⟨[], []⟩) := by
  refine ⟨by decide, ?_⟩
  simp [FloatingPointDatatype.decode, run_tassert, PM.run_bind, readF32,
    readLE, run_readBytes_free, leVal, PM.run_pure]
  norm_num [f32ValOfBits]

/-- C5 (amended): if any of the thirteen description fields that `decode`
checks — endian, the three padding bits, mantissa normalization, sign
location, bit offset, bit precision, exponent location/size, mantissa
location/size, exponent bias (every struct field except `size`) — deviates
from the canonical IEEE-754 single-precision layout, `decode` fails with an
`Unsupported` error for *every* reader state (in particular for an empty
buffer), so all field checks precede the 4-byte data read and no data byte
is consumed. -/
theorem decode_unsupported_on_checked_deviation
    (t : FloatingPointDatatype) (s : Rd)
    (hdev : t.endian ≠ .Little ∨ t.lowPaddingBit ≠ 0 ∨ t.highPaddingBit ≠ 0 ∨
      t.internalPaddingBit ≠ 0 ∨ t.mantissaNorm ≠ .ImpliedToBeSet ∨
      t.signLocation ≠ 31 ∨ t.bitOffset ≠ 0 ∨ t.bitPrecision ≠ 32 ∨
      t.exponentLocation ≠ 23 ∨ t.exponentSize ≠ 8 ∨
      t.mantissaLocation ≠ 0 ∨ t.mantissaSize ≠ 23 ∨ t.exponentBias ≠ 127) :
    PM.run t.decode s = .error ⟨.Unsupported, none⟩ := by
  rw [run_decode_eq, if_neg (by tauto)]

/-- C5 witness: the amended theorem applied to the claim's example, sign
location 30, on an empty data buffer. -/
theorem decode_unsupported_on_checked_deviation_witness :
    (⟨4, .Little, 0, 0, 0, .ImpliedToBeSet, 30, 0, 32, 23, 8, 0, 23, 127⟩ :
        FloatingPointDatatype).signLocation ≠ 31 ∧
    PM.run (⟨4, .Little, 0, 0, 0, .ImpliedToBeSet, 30, 0, 32, 23, 8, 0, 23, 127⟩ :
        FloatingPointDatatype).decode ⟨[], []⟩ = .error ⟨.Unsupported, none⟩ :=
  ⟨by decide, decode_unsupported_on_checked_deviation _ _ (by decide)⟩

/-- C3 counterexample: a SymbolTable message record (type `0x11`) declaring
a 17-byte body of which the variant parser consumes only 16 fails — but with
`ErrorKind.Other` (`track_assert_eq!(reader.limit(), 0, ErrorKind::Other)`),
not with `ErrorKind.InvalidFile` as claimed. -/
theorem headerMessage_trailing_bytes_kind_counterexample :
    PM.run HeaderMessage.from_reader
        ⟨[], [17, 0, 17, 0, 0, 0, 0, 0] ++ List.replicate 17 0⟩ =
      .error ⟨.Other, none⟩ ∧
    ErrorKind.Other ≠ ErrorKind.InvalidFile := by
  constructor
  · decide
  · decide

/-- C3 (amended): whenever the variant parser returns successfully having
consumed strictly fewer bytes than the record's declared 2-byte length
(a nonzero remaining `take` limit `l`), `HeaderMessage::from_reader` fails —
with an error of kind `Other`, the trailing-bytes-in-message condition —
and never returns the under-consumed message. -/
theorem headerMessage_trailing_bytes_fails
    (b0 b1 b2 b3 b4 b5 b6 b7 : Nat) (rest : List Nat)
    (m : Message) (l : Nat) (bytes' : List Nat)
    (hd : PM.run (dispatchMessage (b0 + 256 * b1)) ⟨[b2 + 256 * b3], rest⟩ =
      .ok (m, ⟨[l], bytes'⟩))
    (hl : l ≠ 0) :
    PM.run HeaderMessage.from_reader
        ⟨[], b0 :: b1 :: b2 :: b3 :: b4 :: b5 :: b6 :: b7 :: rest⟩ =
      .error ⟨.Other, none⟩ := by
  rw [run_headerMessage_reduce, hd]
  dsimp only []
  rw [run_popLimit_cons]
  dsimp only []
  rw [if_neg hl]

/-- C3 witness: the amended theorem at the 17-byte-declared, 16-byte-consumed
SymbolTable record. -/
theorem headerMessage_trailing_bytes_fails_witness :
    PM.run (dispatchMessage (17 + 256 * 0)) ⟨[17 + 256 * 0], List.replicate 17 0⟩ =
      .ok (Message.SymbolTable ⟨0, 0⟩, ⟨[1], [0]⟩) ∧
    (1 : Nat) ≠ 0 ∧
    PM.run HeaderMessage.from_reader
        ⟨[], 17 :: 0 :: 17 :: 0 :: 0 :: 0 :: 0 :: 0 :: List.replicate 17 0⟩ =
      .error ⟨.Other, none⟩ :=
  ⟨by decide, by decide,
    headerMessage_trailing_bytes_fails 17 0 17 0 0 0 0 0 (List.replicate 17 0)
      (Message.SymbolTable ⟨0, 0⟩) 1 [0] (by decide) (by decide)⟩

/-- C8: a header message record whose 2-byte type code is none of
`0x00, 0x01, 0x03, 0x05, 0x08, 0x11, 0x12` fails with an `Unsupported` error
carrying the offending type code, whatever the rest of the stream holds —
so no variant parser ever runs. -/
theorem headerMessage_unknown_type_unsupported
    (b0 b1 b2 b3 b4 b5 b6 b7 : Nat) (rest : List Nat)
    (hk : b0 + 256 * b1 ∉ ([0x00, 0x01, 0x03, 0x05, 0x08, 0x11, 0x12] : List Nat)) :
    PM.run HeaderMessage.from_reader
        ⟨[], b0 :: b1 :: b2 :: b3 :: b4 :: b5 :: b6 :: b7 :: rest⟩ =
      .error ⟨.Unsupported, some (b0 + 256 * b1)⟩ := by
  simp only [List.mem_cons, List.not_mem_nil, or_false, not_or] at hk
  obtain ⟨h0, h1, h3, h5, h8, h17, h18⟩ := hk
  rw [run_headerMessage_reduce, dispatchMessage]
  rw [if_neg h0, if_neg h1, if_neg h3, if_neg h5, if_neg h8, if_neg h17, if_neg h18]
  rfl

/-- C8 witness: the unknown type code `0x7F`. -/
theorem headerMessage_unknown_type_unsupported_witness :
    ((0x7F : Nat) + 256 * 0 ∉ ([0x00, 0x01, 0x03, 0x05, 0x08, 0x11, 0x12] : List Nat)) ∧
    PM.run HeaderMessage.from_reader ⟨[], 0x7F :: 0 :: 0 :: 0 :: 0 :: 0 :: 0 :: 0 :: []⟩ =
      .error ⟨.Unsupported, some (0x7F + 256 * 0)⟩ :=
  ⟨by decide, headerMessage_unknown_type_unsupported 0x7F 0 0 0 0 0 0 0 [] (by decide)⟩

/-- C10: the outcome of `HeaderMessage::from_reader` does not depend on the
1-byte flags field: on two records identical except for that byte, either
both runs fail with the very same error, or both succeed with the same
parsed message and reader state, the stored flags being the respective
flag bytes truncated to the defined bit set (bits above `0b0111_1111` are
silently discarded, never rejected). -/
theorem headerMessage_flags_independent
    (b0 b1 b2 b3 f g r1 r2 r3 : Nat) (rest : List Nat) :
    (∀ e : Err,
      PM.run HeaderMessage.from_reader
          ⟨[], b0 :: b1 :: b2 :: b3 :: f :: r1 :: r2 :: r3 :: rest⟩ = .error e ↔
      PM.run HeaderMessage.from_reader
          ⟨[], b0 :: b1 :: b2 :: b3 :: g :: r1 :: r2 :: r3 :: rest⟩ = .error e) ∧
    (∀ (fl : Nat) (m : Message) (t : Rd),
      PM.run HeaderMessage.from_reader
          ⟨[], b0 :: b1 :: b2 :: b3 :: f :: r1 :: r2 :: r3 :: rest⟩ = .ok (⟨fl, m⟩, t) →
        fl = f % 128 ∧
        PM.run HeaderMessage.from_reader
            ⟨[], b0 :: b1 :: b2 :: b3 :: g :: r1 :: r2 :: r3 :: rest⟩ =
          .ok (⟨g % 128, m⟩, t)) := by
  rw [run_headerMessage_reduce, run_headerMessage_reduce]
  cases hD : PM.run (dispatchMessage (b0 + 256 * b1)) ⟨[b2 + 256 * b3], rest⟩ with
  | error e =>
    refine ⟨fun e' => Iff.rfl, fun fl m t h => absurd h (by simp)⟩
  | ok v =>
    obtain ⟨m, t⟩ := v
    dsimp only []
    cases hP : PM.run popLimit t with
    | error e =>
      refine ⟨fun e' => Iff.rfl, fun fl m' t' h => absurd h (by simp)⟩
    | ok w =>
      obtain ⟨l, u⟩ := w
      dsimp only []
      by_cases hl : l = 0
      · rw [if_pos hl, if_pos hl]
        refine ⟨fun e' => by simp, fun fl m' t' h => ?_⟩
        rw [Except.ok.injEq, Prod.mk.injEq, HeaderMessage.mk.injEq] at h
        obtain ⟨⟨hfl, hm⟩, ht⟩ := h
        exact ⟨by rw [← hfl]; rfl, by rw [hm, ht]; rfl⟩
      · rw [if_neg hl, if_neg hl]
        refine ⟨fun e' => Iff.rfl, fun fl m' t' h => absurd h (by simp)⟩

/-- C10 witness: a Nil record with flag byte `0xFF` versus `0x00`: both
succeed with the same message; the stored flags are the bytes truncated to
the low seven bits. -/
theorem headerMessage_flags_independent_witness :
    (127 : Nat) = 255 % 128 ∧
    PM.run HeaderMessage.from_reader ⟨[], 0 :: 0 :: 0 :: 0 :: 0 :: 0 :: 0 :: 0 :: []⟩ =
      .ok (⟨0 % 128, Message.Nil {}⟩, ⟨[], []⟩) :=
  (headerMessage_flags_independent 0 0 0 0 255 0 0 0 0 []).2
    127 (Message.Nil {}) ⟨[], []⟩ (by decide)

/-- C7 counterexample: a datatype record whose first byte is `0x21`
(version 2, class 1 = FloatingPoint) fails with `ErrorKind::Unsupported`
(`track_assert_eq!(version, 1, ErrorKind::Unsupported)`), not with
`InvalidFile` as claimed for a bad version number. -/
theorem datatype_version_kind_counterexample :
    PM.run DatatypeMessage.from_reader ⟨[], [33]⟩ = .error ⟨.Unsupported, none⟩ ∧
    ErrorKind.Unsupported ≠ ErrorKind.InvalidFile := by
  constructor
  · decide
  · decide

/-- C7 (amended): for a datatype record's first byte (4-bit version in the
high nibble, 4-bit class code in the low nibble), a class code greater than
10 always fails with `InvalidFile` carrying the unknown class code (the
class is converted before the version is checked); a version other than 1
with a recognized class code (at most 10) fails with `Unsupported`, not
`InvalidFile`. -/
theorem datatype_version_class_errors (b : Nat) (rest : List Nat) (hb : b < 256) :
    (10 < b % 16 →
      PM.run DatatypeMessage.from_reader ⟨[], b :: rest⟩ =
        .error ⟨.InvalidFile, some (b % 16)⟩) ∧
    (b % 16 ≤ 10 → b / 16 ≠ 1 →
      PM.run DatatypeMessage.from_reader ⟨[], b :: rest⟩ =
        .error ⟨.Unsupported, none⟩) := by
  constructor
  · intro hc
    have w0 : b % 16 ≠ 0 := by omega
    have w1 : b % 16 ≠ 1 := by omega
    have w2 : b % 16 ≠ 2 := by omega
    have w3 : b % 16 ≠ 3 := by omega
    have w4 : b % 16 ≠ 4 := by omega
    have w5 : b % 16 ≠ 5 := by omega
    have w6 : b % 16 ≠ 6 := by omega
    have w7 : b % 16 ≠ 7 := by omega
    have w8 : b % 16 ≠ 8 := by omega
    have w9 : b % 16 ≠ 9 := by omega
    have wa : b % 16 ≠ 10 := by omega
    have ht : DatatypeClass.tryFrom (b % 16) = .error ⟨.InvalidFile, some (b % 16)⟩ := by
      rw [DatatypeClass.tryFrom, if_neg w0, if_neg w1, if_neg w2, if_neg w3, if_neg w4,
        if_neg w5, if_neg w6, if_neg w7, if_neg w8, if_neg w9, if_neg wa]
    rw [DatatypeMessage.from_reader, PM.run_bind, run_readU8_cons]
    dsimp only []
    rw [PM.run_bind, ht, run_liftE]
  · intro hc hv
    rw [DatatypeMessage.from_reader, PM.run_bind, run_readU8_cons]
    dsimp only []
    have h11 : b % 16 = 0 ∨ b % 16 = 1 ∨ b % 16 = 2 ∨ b % 16 = 3 ∨ b % 16 = 4 ∨
        b % 16 = 5 ∨ b % 16 = 6 ∨ b % 16 = 7 ∨ b % 16 = 8 ∨ b % 16 = 9 ∨
        b % 16 = 10 := by
      omega
    rcases h11 with h|h|h|h|h|h|h|h|h|h|h <;>
      (rw [PM.run_bind, h]
       simp only [DatatypeClass.tryFrom, run_liftE]
       norm_num
       rw [run_tassert_bind, if_neg hv])

/-- C7 witness: the amended theorem at `0x2B` (version 2, class 11:
InvalidFile with code 11) and at `0x21` (version 2, class 1: Unsupported). -/
theorem datatype_version_class_errors_witness :
    ((43 : Nat) < 256 ∧ 10 < 43 % 16 ∧
      PM.run DatatypeMessage.from_reader ⟨[], 43 :: []⟩ =
        .error ⟨.InvalidFile, some (43 % 16)⟩) ∧
    ((33 : Nat) < 256 ∧ 33 % 16 ≤ 10 ∧ 33 / 16 ≠ 1 ∧
      PM.run DatatypeMessage.from_reader ⟨[], 33 :: []⟩ =
        .error ⟨.Unsupported, none⟩) :=
  ⟨⟨by decide, by decide,
      (datatype_version_class_errors 43 [] (by decide)).1 (by decide)⟩,
    ⟨by decide, by decide, by decide,
      (datatype_version_class_errors 33 [] (by decide)).2 (by decide) (by decide)⟩⟩

/-- C6: for every 24-bit class bit-field value, the field extraction in
`FloatingPointDatatype::from_reader` recovers exactly the constructing
semantic values — the masked endian bits (bits 0 and 6, the mask value
`bf % 2 + 64 * (bf / 64 % 2)`) map 0 to Little, 1 to Big and `0b1000001`
to Vax; bits 1, 2, 3 are the low/high/internal padding bits; bits 4-5 are
the mantissa normalization (0 None, 1 AlwaysSet, 2 ImpliedToBeSet); bits
8-15 are the sign-bit location — while the reserved combinations (mantissa
norm bits equal to 3, or endian bits equal to `0b1000000`) fail with an
`InvalidFile` error. -/
theorem floatingPoint_bitfield_extraction
    (bf : Nat) (hbf : bf < 2 ^ 24) (size : Nat)
    (b0 b1 b2 b3 b4 b5 b6 b7 b8 b9 b10 b11 b12 b13 b14 b15 : Nat) (rest : List Nat) :
    (bf % 2 + 64 * (bf / 64 % 2) = 64 →
      PM.run (FloatingPointDatatype.from_reader bf size)
          ⟨[], b0 :: b1 :: b2 :: b3 :: b4 :: b5 :: b6 :: b7 ::
            b8 :: b9 :: b10 :: b11 :: b12 :: b13 :: b14 :: b15 :: rest⟩ =
        .error ⟨.InvalidFile, none⟩) ∧
    (bf % 2 + 64 * (bf / 64 % 2) ≠ 64 → bf / 16 % 4 = 3 →
      PM.run (FloatingPointDatatype.from_reader bf size)
          ⟨[], b0 :: b1 :: b2 :: b3 :: b4 :: b5 :: b6 :: b7 ::
            b8 :: b9 :: b10 :: b11 :: b12 :: b13 :: b14 :: b15 :: rest⟩ =
        .error ⟨.InvalidFile, none⟩) ∧
    (bf % 2 + 64 * (bf / 64 % 2) ≠ 64 → bf / 16 % 4 ≠ 3 →
      PM.run (FloatingPointDatatype.from_reader bf size)
          ⟨[], b0 :: b1 :: b2 :: b3 :: b4 :: b5 :: b6 :: b7 ::
            b8 :: b9 :: b10 :: b11 :: b12 :: b13 :: b14 :: b15 :: rest⟩ =
        .ok ({ size := size
               endian := if bf % 2 + 64 * (bf / 64 % 2) = 0 then .Little
                         else if bf % 2 + 64 * (bf / 64 % 2) = 1 then .Big
                         else .Vax
               lowPaddingBit := bf / 2 % 2
               highPaddingBit := bf / 4 % 2
               internalPaddingBit := bf / 8 % 2
               mantissaNorm := if bf / 16 % 4 = 0 then .None
                               else if bf / 16 % 4 = 1 then .AlwaysSet
                               else .ImpliedToBeSet
               signLocation := bf / 256 % 256
               bitOffset := b0 + 256 * b1
               bitPrecision := b2 + 256 * b3
               exponentLocation := b4
               exponentSize := b5
               mantissaLocation := b6
               mantissaSize := b7
               exponentBias := b8 + 256 * (b9 + 256 * (b10 + 256 * b11)) },
             ⟨[], rest⟩)) := by
  have hred : PM.run (FloatingPointDatatype.from_reader bf size)
      ⟨[], b0 :: b1 :: b2 :: b3 :: b4 :: b5 :: b6 :: b7 ::
        b8 :: b9 :: b10 :: b11 :: b12 :: b13 :: b14 :: b15 :: rest⟩ =
      match Endian.tryFrom (bf % 2 + 64 * (bf / 64 % 2)) with
      | .error e => .error e
      | .ok en =>
        match MantissaNorm.tryFrom (bf / 16 % 4) with
        | .error e => .error e
        | .ok mn =>
          .ok ({ size := size
                 endian := en
                 lowPaddingBit := bf / 2 % 2
                 highPaddingBit := bf / 4 % 2
                 internalPaddingBit := bf / 8 % 2
                 mantissaNorm := mn
                 signLocation := bf / 256 % 256
                 bitOffset := b0 + 256 * b1
                 bitPrecision := b2 + 256 * b3
                 exponentLocation := b4
                 exponentSize := b5
                 mantissaLocation := b6
                 mantissaSize := b7
                 exponentBias := b8 + 256 * (b9 + 256 * (b10 + 256 * b11)) },
               ⟨[], rest⟩) := by
    rw [FloatingPointDatatype.from_reader, PM.run_bind, run_readU16_cons]
    dsimp only []
    rw [PM.run_bind, run_readU16_cons]
    dsimp only []
    rw [PM.run_bind, run_readU8_cons]
    dsimp only []
    rw [PM.run_bind, run_readU8_cons]
    dsimp only []
    rw [PM.run_bind, run_readU8_cons]
    dsimp only []
    rw [PM.run_bind, run_readU8_cons]
    dsimp only []
    rw [PM.run_bind, run_readU32_cons]
    dsimp only []
    rw [PM.run_bind, run_skipN_free 4 _ (by simp)]
    dsimp only [List.drop]
    rw [PM.run_bind, run_liftE]
    cases hE : Endian.tryFrom (bf % 2 + 64 * (bf / 64 % 2)) with
    | error e => rfl
    | ok en =>
      dsimp only []
      rw [PM.run_bind, run_liftE]
      cases hM : MantissaNorm.tryFrom (bf / 16 % 4) with
      | error e => rfl
      | ok mn =>
        dsimp only []
        rw [PM.run_pure]
  refine ⟨fun he => ?_, fun he hn => ?_, fun he hn => ?_⟩
  · rw [hred, he]
    simp [Endian.tryFrom]
  · have h3 : bf % 2 + 64 * (bf / 64 % 2) = 0 ∨ bf % 2 + 64 * (bf / 64 % 2) = 1 ∨
        bf % 2 + 64 * (bf / 64 % 2) = 65 := by omega
    rw [hred, hn]
    rcases h3 with h|h|h <;> rw [h] <;> simp [Endian.tryFrom, MantissaNorm.tryFrom]
  · have h3 : bf % 2 + 64 * (bf / 64 % 2) = 0 ∨ bf % 2 + 64 * (bf / 64 % 2) = 1 ∨
        bf % 2 + 64 * (bf / 64 % 2) = 65 := by omega
    have n3 : bf / 16 % 4 = 0 ∨ bf / 16 % 4 = 1 ∨ bf / 16 % 4 = 2 := by omega
    rw [hred]
    rcases h3 with h|h|h <;> rcases n3 with n|n|n <;> rw [h, n] <;>
      simp [Endian.tryFrom, MantissaNorm.tryFrom, h, n]

/-- C6 witness: the theorem at the canonical bit field `0x1F20` (little
endian, implied-set normalization, sign bit 31) with a zero body, and —
for a reserved combination — at bit field `0x30` (mantissa norm bits 3). -/
theorem floatingPoint_bitfield_extraction_witness :
    ((7968 : Nat) < 2 ^ 24 ∧ 7968 % 2 + 64 * (7968 / 64 % 2) ≠ 64 ∧
      7968 / 16 % 4 ≠ 3 ∧
      PM.run (FloatingPointDatatype.from_reader 7968 4)
          ⟨[], 0 :: 0 :: 32 :: 0 :: 23 :: 8 :: 0 :: 23 ::
            127 :: 0 :: 0 :: 0 :: 0 :: 0 :: 0 :: 0 :: []⟩ =
        .ok ({ size := 4
               endian := if 7968 % 2 + 64 * (7968 / 64 % 2) = 0 then .Little
                         else if 7968 % 2 + 64 * (7968 / 64 % 2) = 1 then .Big
                         else .Vax
               lowPaddingBit := 7968 / 2 % 2
               highPaddingBit := 7968 / 4 % 2
               internalPaddingBit := 7968 / 8 % 2
               mantissaNorm := if 7968 / 16 % 4 = 0 then .None
                               else if 7968 / 16 % 4 = 1 then .AlwaysSet
                               else .ImpliedToBeSet
               signLocation := 7968 / 256 % 256
               bitOffset := 0 + 256 * 0
               bitPrecision := 32 + 256 * 0
               exponentLocation := 23
               exponentSize := 8
               mantissaLocation := 0
               mantissaSize := 23
               exponentBias := 127 + 256 * (0 + 256 * (0 + 256 * 0)) },
             ⟨[], []⟩)) ∧
    ((48 : Nat) < 2 ^ 24 ∧ 48 % 2 + 64 * (48 / 64 % 2) ≠ 64 ∧ 48 / 16 % 4 = 3 ∧
      PM.run (FloatingPointDatatype.from_reader 48 4)
          ⟨[], 0 :: 0 :: 32 :: 0 :: 23 :: 8 :: 0 :: 23 ::
            127 :: 0 :: 0 :: 0 :: 0 :: 0 :: 0 :: 0 :: []⟩ =
        .error ⟨.InvalidFile, none⟩) :=
  ⟨⟨by decide, by decide, by decide,
      (floatingPoint_bitfield_extraction 7968 (by decide) 4
          0 0 32 0 23 8 0 23 127 0 0 0 0 0 0 0 []).2.2 (by decide) (by decide)⟩,
    ⟨by decide, by decide, by decide,
      (floatingPoint_bitfield_extraction 48 (by decide) 4
          0 0 32 0 23 8 0 23 127 0 0 0 0 0 0 0 []).2.1 (by decide) (by decide)⟩⟩

/-- C1: for an object header whose messages resolve to the canonical
floating-point datatype and a `[2, 3]` dataspace (element count 6), and
whose contiguous data region holds exactly 24 bytes (six little-endian
32-bit floats), `get_data_object` yields a Float array of shape `[2, 3]`
whose elements are the six decoded values in row-major order; a 20-byte
region (five floats) fails with the I/O read error on the missing bytes of
the sixth element, and a 28-byte region (seven floats) fails with
`InvalidFile` because four bytes remain unconsumed after the sixth. -/
theorem get_data_object_shape_2_3 (h : ObjectHeader) (file : List Nat)
    (hdim : h.dimensions = .ok [2, 3])
    (hdt : h.datatype = .ok (.FloatingPoint canonicalF32)) :
    (∀ x0 x1 x2 x3 x4 x5 x6 x7 x8 x9 x10 x11 x12 x13 x14 x15
        x16 x17 x18 x19 x20 x21 x22 x23 : Nat,
      h.get_data_bytes file =
          .ok [x0, x1, x2, x3, x4, x5, x6, x7, x8, x9, x10, x11, x12, x13, x14,
            x15, x16, x17, x18, x19, x20, x21, x22, x23] →
        h.get_data_object file =
          .ok (DataObject.Float [2, 3]
            [f32ValOfBits (x0 + 256 * (x1 + 256 * (x2 + 256 * x3))),
             f32ValOfBits (x4 + 256 * (x5 + 256 * (x6 + 256 * x7))),
             f32ValOfBits (x8 + 256 * (x9 + 256 * (x10 + 256 * x11))),
             f32ValOfBits (x12 + 256 * (x13 + 256 * (x14 + 256 * x15))),
             f32ValOfBits (x16 + 256 * (x17 + 256 * (x18 + 256 * x19))),
             f32ValOfBits (x20 + 256 * (x21 + 256 * (x22 + 256 * x23)))])) ∧
    (∀ y0 y1 y2 y3 y4 y5 y6 y7 y8 y9 y10 y11 y12 y13 y14 y15 y16 y17 y18 y19 : Nat,
      h.get_data_bytes file =
          .ok [y0, y1, y2, y3, y4, y5, y6, y7, y8, y9, y10, y11, y12, y13, y14,
            y15, y16, y17, y18, y19] →
        h.get_data_object file = .error ⟨.IoError, none⟩) ∧
    (∀ z0 z1 z2 z3 z4 z5 z6 z7 z8 z9 z10 z11 z12 z13 z14 z15 z16 z17 z18 z19
        z20 z21 z22 z23 z24 z25 z26 z27 : Nat,
      h.get_data_bytes file =
          .ok [z0, z1, z2, z3, z4, z5, z6, z7, z8, z9, z10, z11, z12, z13, z14,
            z15, z16, z17, z18, z19, z20, z21, z22, z23, z24, z25, z26, z27] →
        h.get_data_object file = .error ⟨.InvalidFile, none⟩) := by
  refine ⟨?_, ?_, ?_⟩
  · intro x0 x1 x2 x3 x4 x5 x6 x7 x8 x9 x10 x11 x12 x13 x14 x15
      x16 x17 x18 x19 x20 x21 x22 x23 hb
    simp only [ObjectHeader.get_data_object, hb, hdim, hdt]
    norm_num [readN, PM.run_bind, PM.run_pure, run_canonical_decode_cons]
  · intro y0 y1 y2 y3 y4 y5 y6 y7 y8 y9 y10 y11 y12 y13 y14 y15 y16 y17 y18 y19 hb
    simp only [ObjectHeader.get_data_object, hb, hdim, hdt]
    norm_num [readN, PM.run_bind, PM.run_pure, run_canonical_decode_cons,
      run_canonical_decode_nil]
  · intro z0 z1 z2 z3 z4 z5 z6 z7 z8 z9 z10 z11 z12 z13 z14 z15 z16 z17 z18 z19
      z20 z21 z22 z23 z24 z25 z26 z27 hb
    simp only [ObjectHeader.get_data_object, hb, hdim, hdt]
    norm_num [readN, PM.run_bind, PM.run_pure, run_canonical_decode_cons]
    intro hc
    exact absurd hc (by simp)

/-- C1 witness: a concrete header (Dataspace `[2, 3]`, the canonical
floating-point Datatype, a Contiguous layout at offset 0 of size 24) over a
24-byte file holding the test pattern six times. -/
theorem get_data_object_shape_2_3_witness :
    (ObjectHeader.mk ⟨[⟨0, .Dataspace ⟨[2, 3], none⟩⟩,
        ⟨0, .Datatype (.FloatingPoint canonicalF32)⟩,
        ⟨0, .DataLayout ⟨.Contiguous 0 24⟩⟩], 1, 64⟩).dimensions = .ok [2, 3] ∧
    (ObjectHeader.mk ⟨[⟨0, .Dataspace ⟨[2, 3], none⟩⟩,
        ⟨0, .Datatype (.FloatingPoint canonicalF32)⟩,
        ⟨0, .DataLayout ⟨.Contiguous 0 24⟩⟩], 1, 64⟩).datatype =
      .ok (.FloatingPoint canonicalF32) ∧
    (ObjectHeader.mk ⟨[⟨0, .Dataspace ⟨[2, 3], none⟩⟩,
        ⟨0, .Datatype (.FloatingPoint canonicalF32)⟩,
        ⟨0, .DataLayout ⟨.Contiguous 0 24⟩⟩], 1, 64⟩).get_data_bytes
        [166, 73, 90, 67, 166, 73, 90, 67, 166, 73, 90, 67,
         166, 73, 90, 67, 166, 73, 90, 67, 166, 73, 90, 67] =
      .ok [166, 73, 90, 67, 166, 73, 90, 67, 166, 73, 90, 67,
           166, 73, 90, 67, 166, 73, 90, 67, 166, 73, 90, 67] ∧
    (ObjectHeader.mk ⟨[⟨0, .Dataspace ⟨[2, 3], none⟩⟩,
        ⟨0, .Datatype (.FloatingPoint canonicalF32)⟩,
        ⟨0, .DataLayout ⟨.Contiguous 0 24⟩⟩], 1, 64⟩).get_data_object
        [166, 73, 90, 67, 166, 73, 90, 67, 166, 73, 90, 67,
         166, 73, 90, 67, 166, 73, 90, 67, 166, 73, 90, 67] =
      .ok (DataObject.Float [2, 3]
        [f32ValOfBits (166 + 256 * (73 + 256 * (90 + 256 * 67))),
         f32ValOfBits (166 + 256 * (73 + 256 * (90 + 256 * 67))),
         f32ValOfBits (166 + 256 * (73 + 256 * (90 + 256 * 67))),
         f32ValOfBits (166 + 256 * (73 + 256 * (90 + 256 * 67))),
         f32ValOfBits (166 + 256 * (73 + 256 * (90 + 256 * 67))),
         f32ValOfBits (166 + 256 * (73 + 256 * (90 + 256 * 67)))]) :=
  by
  refine ⟨rfl, rfl, rfl, ?_⟩
  exact (get_data_object_shape_2_3
      (ObjectHeader.mk ⟨[⟨0, .Dataspace ⟨[2, 3], none⟩⟩,
        ⟨0, .Datatype (.FloatingPoint canonicalF32)⟩,
        ⟨0, .DataLayout ⟨.Contiguous 0 24⟩⟩], 1, 64⟩)
      [166, 73, 90, 67, 166, 73, 90, 67, 166, 73, 90, 67,
       166, 73, 90, 67, 166, 73, 90, 67, 166, 73, 90, 67] rfl rfl).1
    166 73 90 67 166 73 90 67 166 73 90 67 166 73 90 67 166 73 90 67
    166 73 90 67 rfl

/-- C9: for an object header whose Dataspace declares dimensionality 0 (an
empty dimension-size list), the element count is the empty product 1, and a
contiguous region holding exactly one canonical 32-bit float decodes to a
single-element (scalar) Float data object. -/
theorem get_data_object_scalar (h : ObjectHeader) (file : List Nat)
    (hdim : h.dimensions = .ok [])
    (hdt : h.datatype = .ok (.FloatingPoint canonicalF32)) :
    ∀ x0 x1 x2 x3 : Nat,
      h.get_data_bytes file = .ok [x0, x1, x2, x3] →
        h.get_data_object file =
          .ok (DataObject.Float []
            [f32ValOfBits (x0 + 256 * (x1 + 256 * (x2 + 256 * x3)))]) := by
  intro x0 x1 x2 x3 hb
  simp only [ObjectHeader.get_data_object, hb, hdim, hdt]
  norm_num [readN, PM.run_bind, PM.run_pure, run_canonical_decode_cons]

/-- C9 witness: a concrete zero-dimensional header over a 4-byte region. -/
theorem get_data_object_scalar_witness :
    (ObjectHeader.mk ⟨[⟨0, .Dataspace ⟨[], none⟩⟩,
        ⟨0, .Datatype (.FloatingPoint canonicalF32)⟩,
        ⟨0, .DataLayout ⟨.Contiguous 0 4⟩⟩], 1, 64⟩).dimensions = .ok [] ∧
    (ObjectHeader.mk ⟨[⟨0, .Dataspace ⟨[], none⟩⟩,
        ⟨0, .Datatype (.FloatingPoint canonicalF32)⟩,
        ⟨0, .DataLayout ⟨.Contiguous 0 4⟩⟩], 1, 64⟩).get_data_bytes
        [166, 73, 90, 67] = .ok [166, 73, 90, 67] ∧
    (ObjectHeader.mk ⟨[⟨0, .Dataspace ⟨[], none⟩⟩,
        ⟨0, .Datatype (.FloatingPoint canonicalF32)⟩,
        ⟨0, .DataLayout ⟨.Contiguous 0 4⟩⟩], 1, 64⟩).get_data_object
        [166, 73, 90, 67] =
      .ok (DataObject.Float []
        [f32ValOfBits (166 + 256 * (73 + 256 * (90 + 256 * 67)))]) := by
  refine ⟨rfl, rfl, ?_⟩
  exact get_data_object_scalar
    (ObjectHeader.mk ⟨[⟨0, .Dataspace ⟨[], none⟩⟩,
      ⟨0, .Datatype (.FloatingPoint canonicalF32)⟩,
      ⟨0, .DataLayout ⟨.Contiguous 0 4⟩⟩], 1, 64⟩)
    [166, 73, 90, 67] rfl rfl 166 73 90 67 rfl

/-- `ObjectHeaderPrefix::from_reader` succeeds with result `(p, st)` exactly
when the fixed prefix fields parse with version 1 and reserved byte 0 and
`p`'s message list parses in full from the `take(header_size)` sub-stream,
which ends with remaining limit 0. -/
theorem ohp_from_reader_ok_iff (bytes : List Nat) (p : ObjectHeaderPfx) (st : Rd) :
    PM.run ObjectHeaderPfx.from_reader ⟨[], bytes⟩ = .ok (p, st) ↔
      ∃ st1 st2 cnt st3 st4 st5 st6 st7,
        PM.run readU8 ⟨[], bytes⟩ = .ok (1, st1) ∧
        PM.run readU8 st1 = .ok (0, st2) ∧
        PM.run readU16 st2 = .ok (cnt, st3) ∧
        PM.run readU32 st3 = .ok (p.objectReferenceCount, st4) ∧
        PM.run readU32 st4 = .ok (p.objectHeaderSize, st5) ∧
        PM.run (skipN 4) st5 = .ok ((), st6) ∧
        PM.run (readN cnt HeaderMessage.from_reader)
            ⟨p.objectHeaderSize :: st6.limits, st6.bytes⟩ = .ok (p.messages, st7) ∧
        PM.run popLimit st7 = .ok (0, st) := by
  constructor
  · intro hok
    rw [ObjectHeaderPfx.from_reader, PM.run_bind] at hok
    cases h1 : PM.run readU8 ⟨[], bytes⟩ with
    | error e => rw [h1] at hok; exact absurd hok (by simp)
    | ok v =>
      obtain ⟨ver, st1⟩ := v
      rw [h1] at hok
      dsimp only [] at hok
      rw [run_tassert_bind] at hok
      by_cases hv : ver = 1
      case neg => rw [if_neg hv] at hok; exact absurd hok (by simp)
      rw [if_pos hv] at hok
      subst hv
      rw [PM.run_bind] at hok
      cases h2 : PM.run readU8 st1 with
      | error e => rw [h2] at hok; exact absurd hok (by simp)
      | ok v =>
        obtain ⟨res, st2⟩ := v
        rw [h2] at hok
        dsimp only [] at hok
        rw [run_tassert_bind] at hok
        by_cases hr : res = 0
        case neg => rw [if_neg hr] at hok; exact absurd hok (by simp)
        rw [if_pos hr] at hok
        subst hr
        rw [PM.run_bind] at hok
        cases h3 : PM.run readU16 st2 with
        | error e => rw [h3] at hok; exact absurd hok (by simp)
        | ok v =>
          obtain ⟨cnt, st3⟩ := v
          rw [h3] at hok
          dsimp only [] at hok
          rw [PM.run_bind] at hok
          cases h4 : PM.run readU32 st3 with
          | error e => rw [h4] at hok; exact absurd hok (by simp)
          | ok v =>
            obtain ⟨refc, st4⟩ := v
            rw [h4] at hok
            dsimp only [] at hok
            rw [PM.run_bind] at hok
            cases h5 : PM.run readU32 st4 with
            | error e => rw [h5] at hok; exact absurd hok (by simp)
            | ok v =>
              obtain ⟨hsz, st5⟩ := v
              rw [h5] at hok
              dsimp only [] at hok
              rw [PM.run_bind] at hok
              cases h6 : PM.run (skipN 4) st5 with
              | error e => rw [h6] at hok; exact absurd hok (by simp)
              | ok v =>
                obtain ⟨u, st6⟩ := v
                obtain ⟨⟩ := u
                rw [h6] at hok
                dsimp only [] at hok
                rw [PM.run_bind, run_pushLimit] at hok
                dsimp only [] at hok
                rw [PM.run_bind] at hok
                cases h7 : PM.run (readN cnt HeaderMessage.from_reader)
                    ⟨hsz :: st6.limits, st6.bytes⟩ with
                | error e => rw [h7] at hok; exact absurd hok (by simp)
                | ok v =>
                  obtain ⟨msgs, st7⟩ := v
                  rw [h7] at hok
                  dsimp only [] at hok
                  rw [PM.run_bind] at hok
                  cases h8 : PM.run popLimit st7 with
                  | error e => rw [h8] at hok; exact absurd hok (by simp)
                  | ok v =>
                    obtain ⟨l, st8⟩ := v
                    rw [h8] at hok
                    dsimp only [] at hok
                    rw [run_tassert_bind] at hok
                    by_cases hl : l = 0
                    case neg => rw [if_neg hl] at hok; exact absurd hok (by simp)
                    rw [if_pos hl] at hok
                    subst hl
                    rw [PM.run_pure, Except.ok.injEq, Prod.mk.injEq] at hok
                    obtain ⟨hp, hst⟩ := hok
                    subst hst
                    refine ⟨st1, st2, cnt, st3, st4, st5, st6, st7,
                      rfl, h2, h3, ?_, ?_, h6, ?_, h8⟩
                    · rw [← hp]; exact h4
                    · rw [← hp]; exact h5
                    · rw [← hp]; exact h7
  · rintro ⟨st1, st2, cnt, st3, st4, st5, st6, st7,
      h1, h2, h3, h4, h5, h6, h7, h8⟩
    rw [ObjectHeaderPfx.from_reader, PM.run_bind, h1]
    dsimp only []
    rw [run_tassert_bind, if_pos rfl, PM.run_bind, h2]
    dsimp only []
    rw [run_tassert_bind, if_pos rfl, PM.run_bind, h3]
    dsimp only []
    rw [PM.run_bind, h4]
    dsimp only []
    rw [PM.run_bind, h5]
    dsimp only []
    rw [PM.run_bind, h6]
    dsimp only []
    rw [PM.run_bind, run_pushLimit]
    dsimp only []
    rw [PM.run_bind, h7]
    dsimp only []
    rw [PM.run_bind, h8]
    dsimp only []
    rw [run_tassert_bind, if_pos rfl, PM.run_pure]

/-- C2: `ObjectHeaderPrefix::from_reader` succeeds if and only if the
version byte reads as 1, the reserved byte as 0, and after the counts, the
declared header size and the alignment padding, exactly `message_count`
header messages parse from a sub-stream bounded to `header_size` whose
remaining limit is zero afterwards (the messages consume exactly
`header_size` bytes — a leftover makes the parse fail); and on success the
prefix holds exactly `message_count` (the little-endian 16-bit field at
offset 2) parsed messages. -/
theorem ohp_characterization (bytes : List Nat) :
    ((∃ p st, PM.run ObjectHeaderPfx.from_reader ⟨[], bytes⟩ = .ok (p, st)) ↔
      (∃ st1 st2 cnt st3 refc st4 hsz st5 st6 msgs st7 st8,
        PM.run readU8 ⟨[], bytes⟩ = .ok (1, st1) ∧
        PM.run readU8 st1 = .ok (0, st2) ∧
        PM.run readU16 st2 = .ok (cnt, st3) ∧
        PM.run readU32 st3 = .ok (refc, st4) ∧
        PM.run readU32 st4 = .ok (hsz, st5) ∧
        PM.run (skipN 4) st5 = .ok ((), st6) ∧
        PM.run (readN cnt HeaderMessage.from_reader)
            ⟨hsz :: st6.limits, st6.bytes⟩ = .ok (msgs, st7) ∧
        PM.run popLimit st7 = .ok (0, st8) ∧
        msgs.length = cnt)) ∧
    (∀ p st, PM.run ObjectHeaderPfx.from_reader ⟨[], bytes⟩ = .ok (p, st) →
      p.messages.length = leVal ((bytes.drop 2).take 2)) := by
  constructor
  · constructor
    · rintro ⟨p, st, hok⟩
      obtain ⟨st1, st2, cnt, st3, st4, st5, st6, st7,
        h1, h2, h3, h4, h5, h6, h7, h8⟩ := (ohp_from_reader_ok_iff bytes p st).mp hok
      exact ⟨st1, st2, cnt, st3, p.objectReferenceCount, st4, p.objectHeaderSize,
        st5, st6, p.messages, st7, st, h1, h2, h3, h4, h5, h6, h7, h8,
        readN_length _ _ _ _ _ h7⟩
    · rintro ⟨st1, st2, cnt, st3, refc, st4, hsz, st5, st6, msgs, st7, st8,
        h1, h2, h3, h4, h5, h6, h7, h8, hlen⟩
      exact ⟨⟨msgs, refc, hsz⟩, st8, (ohp_from_reader_ok_iff bytes _ st8).mpr
        ⟨st1, st2, cnt, st3, st4, st5, st6, st7, h1, h2, h3, h4, h5, h6, h7, h8⟩⟩
  · intro p st hok
    obtain ⟨st1, st2, cnt, st3, st4, st5, st6, st7,
      h1, h2, h3, h4, h5, h6, h7, h8⟩ := (ohp_from_reader_ok_iff bytes p st).mp hok
    have hlen := readN_length _ _ _ _ _ h7
    rw [readU8] at h1 h2
    rw [readU16] at h3
    obtain ⟨hv1, hst1, hav1⟩ := run_readLE_ok 1 _ _ _ h1
    obtain ⟨hv2, hst2, hav2⟩ := run_readLE_ok 1 _ _ _ h2
    obtain ⟨hv3, hst3, hav3⟩ := run_readLE_ok 2 _ _ _ h3
    subst hst1
    subst hst2
    rw [hlen, hv3]
    simp [List.drop_drop]

/-- C2 witness: a 16-byte prefix (version 1, reserved 0, one message,
header size 8) followed by one 8-byte Nil message record parses, and its
message count is the declared one. -/
theorem ohp_characterization_witness :
    PM.run ObjectHeaderPfx.from_reader
        ⟨[], [1, 0, 1, 0, 0, 0, 0, 0, 8, 0, 0, 0, 9, 9, 9, 9,
          0, 0, 0, 0, 0, 0, 0, 0]⟩ =
      .ok (⟨[⟨0, Message.Nil {}⟩], 0, 8⟩, ⟨[], []⟩) ∧
    (⟨[⟨0, Message.Nil {}⟩], 0, 8⟩ : ObjectHeaderPfx).messages.length =
      leVal ((([1, 0, 1, 0, 0, 0, 0, 0, 8, 0, 0, 0, 9, 9, 9, 9,
        0, 0, 0, 0, 0, 0, 0, 0] : List Nat).drop 2).take 2) :=
  ⟨by decide,
    (ohp_characterization [1, 0, 1, 0, 0, 0, 0, 0, 8, 0, 0, 0, 9, 9, 9, 9,
      0, 0, 0, 0, 0, 0, 0, 0]).2 ⟨[⟨0, Message.Nil {}⟩], 0, 8⟩ ⟨[], []⟩
      (by decide)⟩
